import Mathlib

/-!
Shallow embedding of the CSV upload/filter/summary web utility
(`src/app.py`).  The pipeline embedded here is the one the spec calls the
core: TableLoader (`get_dataframe`), DateNormalizer (`pd.to_datetime` with
`errors="coerce"`), FilterEngine and ComplementComputer (`filter_action`),
SummaryAggregator (`email_summary`), ExportEncoder (`to_csv`) and the
session frame of `upload_file`.

Modelling conventions:
* a pandas cell is `Option String`: `none` is NaN / a missing value, and
  `some s` is the textual field read from the CSV.  (`read_csv` dtype
  inference is out of scope: fields stay textual, which is faithful for the
  string comparisons and date parses the claims are about.)
* a DataFrame is a column-name list plus rows paired with their pandas
  index label; `read_csv` produces the default RangeIndex `0, 1, 2, ...`
  and boolean filtering keeps the original labels, which is what makes the
  delete simulation (`df.drop`) positional.
* machine text is `List Nat` for bytes and `List Char` for decoded text.
* `pd.to_datetime` is modelled on the textual forms the app feeds it:
  `YYYY-MM-DD`, optionally followed by a time-of-day that is discarded
  (the source immediately drops it via `.date()` / `.dt.date`), with real
  calendar validation so that inputs such as `2024-13-40` fail to parse.
-/

/-- A pandas cell: `none` models NaN (a missing value). -/
abbrev Cell := Option String

/-- Calendar dates are encoded as the number `y * 10000 + m * 100 + d`.
For parsed dates (`1 ≤ m ≤ 12`, `1 ≤ d ≤ 31`) this encoding is strictly
monotone in calendar order, so `Nat` order is calendar order. -/
def mkDate (y m d : Nat) : Nat := y * 10000 + m * 100 + d

/-- Gregorian leap-year rule, as used by the datetime library. -/
def isLeapYear (y : Nat) : Bool :=
  (y % 4 == 0 && y % 100 != 0) || y % 400 == 0

/-- Number of days of month `m` of year `y`. -/
def daysInMonth (y m : Nat) : Nat :=
  if m == 2 then (if isLeapYear y then 29 else 28)
  else if m == 4 || m == 6 || m == 9 || m == 11 then 30
  else 31

/-- Splits a character list at every occurrence of the separator; the
separator occurrences themselves are dropped.  `splitSep c []` is
`[[]]`, matching the usual text semantics (the empty text has one empty
field). -/
def splitSep (c : Char) : List Char → List (List Char)
  | [] => [[]]
  | x :: xs =>
    let r := splitSep c xs
    if x = c then [] :: r else (x :: r.headD []) :: r.tail

/-- Decimal value of a digit character, `none` for a non-digit. -/
def digitVal (c : Char) : Option Nat :=
  if 48 ≤ c.toNat && c.toNat ≤ 57 then some (c.toNat - 48) else none

/-- Accumulating decimal reader over digit characters. -/
def digitsToNatAux (acc : Nat) : List Char → Option Nat
  | [] => some acc
  | c :: cs =>
    match digitVal c with
    | some d => digitsToNatAux (acc * 10 + d) cs
    | none => none

/-- Decimal number denoted by a non-empty all-digit character list. -/
def digitsToNat (l : List Char) : Option Nat :=
  if l.isEmpty then none else digitsToNatAux 0 l

/-- Model of `pd.to_datetime` on one textual value, restricted to the
forms the application feeds it: `YYYY-MM-DD`, optionally followed by a
blank and a time-of-day.  The time-of-day is discarded (the source calls
`.date()` / `.dt.date` right away) and the calendar is validated, so an
input such as `2024-13-40` yields `none` (the `ValueError` / NaT case). -/
def parseDate (s : String) : Option Nat :=
  match splitSep '-' (s.data.takeWhile (fun c => c != ' ')) with
  | [ys, ms, ds] =>
    match digitsToNat ys, digitsToNat ms, digitsToNat ds with
    | some y, some m, some d =>
      if 1 ≤ m && m ≤ 12 && 1 ≤ d && d ≤ daysInMonth y m then some (mkDate y m d)
      else none
    | _, _, _ => none
  | _ => none

/-- Normalized date of a cell: `pd.to_datetime(column, errors="coerce")`
followed by `.dt.date`.  A missing cell is NaT, and NaT compares unequal
to every date, so it is modelled as `none`. -/
def cellDate : Cell → Option Nat
  | none => none
  | some s => parseDate s

/-- Textual coercion `series.astype(str)` of one cell.  pandas renders NaN
as the three letters `nan`, so the `.fillna("")` the source applies
afterwards is a no-op: after `astype(str)` the series holds no NaN. -/
def cellAsStr : Cell → String
  | none => "nan"
  | some s => s

/-- Follows the words of the spec, for comparison with `cellAsStr`:
"coerced to its textual representation, with missing values treated as
empty text". -/
def cellAsStrSpec : Cell → String
  | none => ""
  | some s => s

/-- An in-memory DataFrame: column names plus rows, each row paired with
its pandas index label (`read_csv` assigns `0, 1, 2, ...`). -/
structure DF where
  cols : List String
  rows : List (Nat × List Cell)
deriving DecidableEq, Repr

/-- Date column constant of the source (`date_col = "Order Date"`). -/
def dateCol : String := "Order Date"

/-- Category column constant of the source
(`restaurant_col = "Restaurant Name"`). -/
def restaurantCol : String := "Restaurant Name"

/-- Value of column `c` in a row, `none` when the column is unknown. -/
def getCell (cols : List String) (c : String) (row : List Cell) : Cell :=
  match cols.findIdx? (fun x => x == c) with
  | some i => row.getD i none
  | none => none

/-- User-visible warnings flashed by the filtering logic, one constructor
per `flash` site: the `except ValueError` branch for a malformed filter
date, and the two `Column ... not found for filtering.` warnings.  (The
generic `except Exception` branches of the source cannot fire in this
pure model.) -/
inductive Note where
  | invalidDateFormat (input : String)
  | columnNotFound (col : String)
deriving DecidableEq, Repr

/-- Result of one filter clause (and of the whole engine): the surviving
rows, the `active_filters` descriptions, and the flashed warnings. -/
structure ClauseOut where
  rows : List (Nat × List Cell)
  active : List String
  notes : List Note
deriving DecidableEq, Repr

/-- The two form fields of a filter/download/delete request:
`filter_date` (expects `YYYY-MM-DD`) and `filter_restaurant`.  An empty
string is a falsy form value, i.e. an absent clause. -/
structure FilterSpec where
  dateStr : String
  restaurant : String
deriving DecidableEq, Repr

/-- Date clause of `filter_action` (lines 311-331 of `src/app.py`):
applied only when `filter_date_str` is truthy; when the column is missing
a warning is flashed instead; when the filter date fails to parse the
`except ValueError` branch flashes the invalid-date warning and leaves
the rows untouched; otherwise rows whose normalized date equals the
filter date survive and the clause description is recorded. -/
def dateClause (cols : List String) (dateStr : String)
    (rows : List (Nat × List Cell)) : ClauseOut :=
  if dateStr = "" then ⟨rows, [], []⟩
  else if dateCol ∈ cols then
    match parseDate dateStr with
    | some d =>
      ⟨rows.filter (fun ir => cellDate (getCell cols dateCol ir.2) == some d),
       [dateCol ++ " = " ++ dateStr], []⟩
    | none => ⟨rows, [], [Note.invalidDateFormat dateStr]⟩
  else ⟨rows, [], [Note.columnNotFound dateCol]⟩

/-- Restaurant clause of `filter_action` (lines 334-347): case-sensitive
comparison of `astype(str).fillna("")` against the supplied string, the
column-missing warning otherwise.  The clause description of the source
wraps the value in single quotes; the quote characters are omitted here. -/
def restClause (cols : List String) (restStr : String)
    (rows : List (Nat × List Cell)) : ClauseOut :=
  if restStr = "" then ⟨rows, [], []⟩
  else if restaurantCol ∈ cols then
    ⟨rows.filter (fun ir => cellAsStr (getCell cols restaurantCol ir.2) == restStr),
     [restaurantCol ++ " = " ++ restStr], []⟩
  else ⟨rows, [], [Note.columnNotFound restaurantCol]⟩

/-- The filter engine of `filter_action`: the date clause runs first on a
copy of the full table, the restaurant clause runs on its output, and the
descriptions and warnings accumulate in order. -/
def applyFilters (df : DF) (spec : FilterSpec) : ClauseOut :=
  let s1 := dateClause df.cols spec.dateStr df.rows
  let s2 := restClause df.cols spec.restaurant s1.rows
  ⟨s2.rows, s1.active ++ s2.active, s1.notes ++ s2.notes⟩

/-- Normalized dates of the rows that carry a parseable date, in row
order: `pd.to_datetime(df[col], errors="coerce")` then `dropna`
(`email_summary`, lines 238-240). -/
def validDates (df : DF) : List Nat :=
  (df.rows.map (fun ir => cellDate (getCell df.cols dateCol ir.2))).reduceOption

/-- Outcome of the datewise summary of `email_summary`: the grouped
report, or one of the two empty outcomes of the source (no valid dates /
column not found). -/
inductive SummaryResult where
  | report (l : List (Nat × Nat))
  | noValidDates
  | columnMissing
deriving DecidableEq, Repr

/-- Datewise summary of `email_summary` (lines 236-254):
`groupby(dates.dt.date).size()` groups the rows with a parseable date by
calendar date, counts rows per date, and emits the groups sorted by date
ascending (pandas groupby sorts the group keys). -/
def summarize (df : DF) : SummaryResult :=
  if dateCol ∈ df.cols then
    let ds := validDates df
    if ds.isEmpty then .noValidDates
    else .report ((Multiset.sort (· ≤ ·) (↑ds.dedup : Multiset Nat)).map
      (fun d => (d, ds.count d)))
  else .columnMissing

/-- Interleaves the separator between the fields. -/
def joinSep (c : Char) : List (List Char) → List Char
  | [] => []
  | [f] => f
  | f :: g :: rest => f ++ c :: joinSep c (g :: rest)

/-- One serialized CSV field, as `to_csv` writes it: a missing value
becomes empty text, a present value its characters.  (Quoting never
triggers for the clean tables the round-trip claim is about.) -/
def encodeField : Cell → List Char
  | none => []
  | some s => s.data

/-- One parsed CSV field, as `read_csv` reads it: empty text is a missing
value (NaN), anything else the textual value. -/
def parseField (cs : List Char) : Cell :=
  if cs.isEmpty then none else some (String.mk cs)

/-- Model of `pd.read_csv` on decoded text: lines split at newlines with
blank lines skipped (`skip_blank_lines` default), the first line is the
header, every further line a row, fields split at commas.  A ragged line
(field count differing from the header) and a file with no lines at all
are read failures (`ParserError` / `EmptyDataError`), i.e. `none`.  Rows
receive the RangeIndex `0, 1, 2, ...`. -/
def parseCSV (text : List Char) : Option DF :=
  match (splitSep '\n' text).filter (fun l => !l.isEmpty) with
  | [] => none
  | header :: rest =>
    let cols := (splitSep ',' header).map String.mk
    let rows := rest.map (fun line => (splitSep ',' line).map parseField)
    if rows.all (fun r => r.length == cols.length) then some ⟨cols, rows.enum⟩
    else none

/-- Field matrix of the serialization: the header fields then the fields
of every row in order. -/
def fieldRows (df : DF) : List (List (List Char)) :=
  (df.cols.map String.data) :: df.rows.map (fun ir => ir.2.map encodeField)

/-- Serialization `to_csv(index=False)`: the header line then one line
per row in order, every line terminated by a newline, the index omitted. -/
def encodeCSV (df : DF) : List Char :=
  ((fieldRows df).map (fun line => joinSep ',' line ++ [ '\n'])).flatten

/-- Is this byte a UTF-8 continuation byte? -/
def isCont (b : Nat) : Bool := 128 ≤ b && b ≤ 191

/-- Decodes one UTF-8 sequence: given the lead byte and the remaining
bytes, yields the code point and the bytes after the sequence, or fails.
Overlong forms, surrogates and out-of-range leads are rejected, exactly
the shapes on which the `utf-8` codec raises `UnicodeDecodeError`. -/
def utf8Step (b : Nat) (bs : List Nat) : Option (Nat × List Nat) :=
  if b ≤ 127 then some (b, bs)
  else if 194 ≤ b && b ≤ 223 then
    match bs with
    | b1 :: bs2 =>
      if isCont b1 then some ((b - 192) * 64 + (b1 - 128), bs2) else none
    | [] => none
  else if 224 ≤ b && b ≤ 239 then
    match bs with
    | b1 :: b2 :: bs3 =>
      if (if b == 224 then 160 ≤ b1 && b1 ≤ 191
          else if b == 237 then 128 ≤ b1 && b1 ≤ 159
          else isCont b1) && isCont b2 then
        some ((b - 224) * 4096 + (b1 - 128) * 64 + (b2 - 128), bs3)
      else none
    | _ => none
  else if 240 ≤ b && b ≤ 244 then
    match bs with
    | b1 :: b2 :: b3 :: bs4 =>
      if (if b == 240 then 144 ≤ b1 && b1 ≤ 191
          else if b == 244 then 128 ≤ b1 && b1 ≤ 143
          else isCont b1) && isCont b2 && isCont b3 then
        some ((b - 240) * 262144 + (b1 - 128) * 4096 + (b2 - 128) * 64 + (b3 - 128),
          bs4)
      else none
    | _ => none
  else none

/-- Fuel-indexed decoding loop: each step consumes at least one byte, so
fuel equal to the byte count always suffices. -/
def utf8DecodeAux : Nat → List Nat → Option (List Nat)
  | _, [] => some []
  | 0, _ :: _ => none
  | fuel + 1, b :: bs =>
    match utf8Step b bs with
    | some (cp, rest) => (utf8DecodeAux fuel rest).map (cp :: ·)
    | none => none

/-- Strict UTF-8 decoding of a byte list into code points; fails exactly
when the `utf-8` codec would raise `UnicodeDecodeError`. -/
def utf8Decode (bytes : List Nat) : Option (List Nat) :=
  utf8DecodeAux bytes.length bytes

/-- Latin-1 (ISO-8859-1) decoding: every byte is the code point of the
same value.  It is a total function, so this decoding cannot fail on any
byte sequence. -/
def latin1Decode (bytes : List Nat) : List Nat := bytes

/-- UTF-8 encoding of one code point. -/
def utf8EncodeChar (c : Nat) : List Nat :=
  if c ≤ 127 then [c]
  else if c ≤ 2047 then [192 + c / 64, 128 + c % 64]
  else if c ≤ 65535 then [224 + c / 4096, 128 + (c / 64) % 64, 128 + c % 64]
  else [240 + c / 262144, 128 + (c / 4096) % 64, 128 + (c / 64) % 64, 128 + c % 64]

/-- UTF-8 encoding of text, as `to_csv(..., encoding="utf-8")` emits it. -/
def utf8Encode (cs : List Char) : List Nat :=
  (cs.map (fun c => utf8EncodeChar c.toNat)).flatten

/-- Code points to characters (the decoders above only produce valid
scalar values). -/
def natsToChars (l : List Nat) : List Char := l.map Char.ofNat

/-- Byte stream of the download path: `to_csv` text, UTF-8 encoded. -/
def encodeBytes (df : DF) : List Nat := utf8Encode (encodeCSV df)

/-- Table loading from raw bytes, with the encoding-fallback policy of
`get_dataframe` (lines 57-80): the UTF-8 decode is attempted first, and
exactly when it raises a decode failure the Latin-1 decode is retried;
a parse failure in either branch is the `None` (read-error) outcome. -/
def loadCSV (bytes : List Nat) : Option DF :=
  match utf8Decode bytes with
  | some cps => parseCSV (natsToChars cps)
  | none => parseCSV (natsToChars (latin1Decode bytes))

/-- The file system visible to the request: bytes stored at each path,
`none` when `os.path.exists` is false. -/
abbrev FileSys := String → Option (List Nat)

/-- Per-session upload reference (`session["filename"]` /
`session["filepath"]`); `none` models a popped key. -/
structure Session where
  filename : Option String
  filepath : Option String
deriving DecidableEq, Repr

/-- Model of `get_dataframe(filepath)`: `None` for a missing file,
otherwise the fallback loader on the stored bytes. -/
def getDataframe (fs : FileSys) (path : String) : Option DF :=
  match fs path with
  | none => none
  | some bytes => loadCSV bytes

/-- Rows of `original` whose index label is not among the labels of
`filtered` — `df.drop(indices_to_delete)` of line 396, which removes the
rows whose positional identity matched the filter. -/
def complementOf (rows filtered : List (Nat × List Cell)) : List (Nat × List Cell) :=
  rows.filter (fun ir => decide (ir.1 ∉ filtered.map Prod.fst))

/-- Delete simulation of `filter_action` (lines 389-410): when some rows
matched, the remainder is the original minus the matched index labels and
the reported count the difference of lengths; when no rows matched the
source skips the drop, leaves the table as it is, and reports that
nothing was deleted (count zero). -/
def deleteSimulate (df : DF) (filtered : List (Nat × List Cell)) :
    List (Nat × List Cell) × Nat :=
  if filtered.isEmpty then (df.rows, 0)
  else
    let after := complementOf df.rows filtered
    (after, df.rows.length - after.length)

/-- Observable outcome of one `filter_action` request, one constructor
per terminal branch of the handler. -/
inductive Outcome where
  | redirectIndex
  | emptyFile
  | noMatchDownload
  | download (payload : List Nat) (name : String)
  | deleteSim (remaining : List (Nat × List Cell)) (numDeleted : Nat)
  | invalidAction
deriving Repr

/-- Full result of one `filter_action` request: the file system after the
request, the session after the request, the outcome, and the filter
descriptions and warnings produced on the way. -/
structure FAResult where
  fs : FileSys
  sess : Session
  out : Outcome
  active : List String
  notes : List Note

/-- The `filter_action` handler (lines 271-415): a missing session path,
a missing file or an unreadable file redirect and pop the session
reference; an empty table short-circuits; otherwise the filter engine
runs and the requested action (download / delete / other) dispatches.
The handler never writes to the file system. -/
def filter_action (fs : FileSys) (sess : Session)
    (action dateStr restStr : String) : FAResult :=
  match sess.filepath with
  | none => ⟨fs, ⟨none, none⟩, .redirectIndex, [], []⟩
  | some path =>
    match fs path with
    | none => ⟨fs, ⟨none, none⟩, .redirectIndex, [], []⟩
    | some bytes =>
      match loadCSV bytes with
      | none => ⟨fs, ⟨none, none⟩, .redirectIndex, [], []⟩
      | some df =>
        if df.rows.isEmpty then ⟨fs, sess, .emptyFile, [], []⟩
        else
          let fo := applyFilters df ⟨dateStr, restStr⟩
          if action = "download" then
            if fo.rows.isEmpty then ⟨fs, sess, .noMatchDownload, fo.active, fo.notes⟩
            else
              ⟨fs, sess,
               .download (encodeBytes ⟨df.cols, fo.rows⟩)
                 ("filtered_" ++ sess.filename.getD "Unknown file"),
               fo.active, fo.notes⟩
          else if action = "delete" then
            let r := deleteSimulate df fo.rows
            ⟨fs, sess, .deleteSim r.1 r.2, fo.active, fo.notes⟩
          else ⟨fs, sess, .invalidAction, fo.active, fo.notes⟩

/-- Characters after the last dot: `filename.rsplit(".", 1)[1]` when a
dot is present. -/
def extAfterLastDot (l : List Char) : List Char :=
  (l.reverse.takeWhile (fun x => x != Char.ofNat 46)).reverse

/-- The `allowed_file` helper (lines 52-55): a dot must occur and the
lower-cased extension after the last dot must be `csv`. -/
def allowed_file (filename : String) : Bool :=
  filename.data.contains (Char.ofNat 46) &&
    ["csv"].contains (String.mk ((extAfterLastDot filename.data).map Char.toLower))

/-- Upload folder constant (`app.config["UPLOAD_FOLDER"]`), with the
path join modelled as prefixing. -/
def uploadFolder : String := "uploads/"

/-- What the upload request exposes to the handler: whether a `file`
part is present, the submitted filename, and whether `file.save`
succeeds (an external file-system effect). -/
structure UploadReq where
  hasFilePart : Bool
  filename : String
  saveOk : Bool
deriving DecidableEq, Repr

/-- Terminal branch taken by `upload_file`. -/
inductive UploadOutcome where
  | noFilePart
  | noFilename
  | badExtension
  | saveFailed
  | saved (fn : String)
deriving DecidableEq, Repr

/-- The `upload_file` handler (lines 135-169): the three rejections (no
file part, empty filename, disallowed extension) happen before any save
and leave the session as it is; a successful save overwrites the session
reference; a failed save pops both keys.  `secure_filename` is the
external sanitizer, passed in as a function. -/
def upload_file (secure : String → String) (req : UploadReq)
    (sess : Session) : Session × UploadOutcome :=
  if req.hasFilePart = false then (sess, .noFilePart)
  else if req.filename = "" then (sess, .noFilename)
  else if allowed_file req.filename then
    let fn := secure req.filename
    if req.saveOk then (⟨some fn, some (uploadFolder ++ fn)⟩, .saved fn)
    else (⟨none, none⟩, .saveFailed)
  else (sess, .badExtension)

/-- Clean text in the sense of the round-trip property: non-empty, free
of the separator characters (code points 10 and 13), of the delimiter
(44) and of the quote character (34), and pure ASCII, so that the
serialization never needs quoting or a non-trivial encoding. -/
def cleanChars (l : List Char) : Bool :=
  !l.isEmpty && l.all (fun c =>
    c.toNat != 10 && c.toNat != 13 && c.toNat != 44 && c.toNat != 34 &&
      decide (c.toNat < 128))

/-- Clean cell: a present value with clean text.  (A missing value or an
empty text cell is a pathological case for the round trip: both encode to
empty text, which `read_csv` reads back as NaN.) -/
def cleanCellB : Cell → Bool
  | none => false
  | some s => cleanChars s.data

/-- Clean table: at least one column, clean column names, rows of the
header width with clean cells — the "no pathological delimiter/quote/
encoding edge cases" side condition of the round-trip property. -/
def cleanDF (df : DF) : Bool :=
  !df.cols.isEmpty &&
    df.cols.all (fun s => cleanChars s.data) &&
    df.rows.all (fun ir => ir.2.length == df.cols.length && ir.2.all cleanCellB)

/-- Bytes of an ASCII string, for concrete file contents. -/
def strBytes (s : String) : List Nat := s.data.map Char.toNat

/-- Concrete table whose Restaurant Name cell of row 0 is missing. -/
def dfNan : DF :=
  ⟨[restaurantCol], [(0, [none]), (1, [some "Pizza Place"])]⟩

/-- Concrete table without the date column. -/
def dfNoDate : DF :=
  ⟨[restaurantCol], [(0, [some "Pizza Place"])]⟩

/-- Concrete table with both recognized columns and a malformed date. -/
def dfBoth : DF :=
  ⟨[dateCol, restaurantCol],
   [(0, [some "2024-01-05", some "Pizza Place"]),
    (1, [some "2024-01-05", some "Sushi Bar"]),
    (2, [some "2024-01-06", some "Pizza Place"]),
    (3, [some "not-a-date", some "Pizza Place"])]⟩

/-- Concrete table with neither recognized column. -/
def dfNoCols : DF := ⟨["X"], [(0, [some "v"])]⟩

/-- Concrete clean table for the round-trip witness. -/
def dfClean : DF :=
  ⟨["A", "B"], [(7, [some "x", some "y1"]), (3, [some "z", some "w"])]⟩

/-- Concrete CSV file bytes. -/
def csvBytesEx : List Nat :=
  strBytes "Order Date,Restaurant Name\n2024-01-05,Pizza Place\n"

/-- The table `csvBytesEx` loads to. -/
def dfEx : DF :=
  ⟨[dateCol, restaurantCol], [(0, [some "2024-01-05", some "Pizza Place"])]⟩

/-- Concrete file system holding exactly one CSV file. -/
def fsEx : FileSys :=
  fun p => if p = "uploads/data.csv" then some csvBytesEx else none

/-- Concrete session referencing the file of `fsEx`. -/
def sessEx : Session := ⟨some "data.csv", some "uploads/data.csv"⟩

/-- Concrete file system whose stored file is empty, so that loading it
fails (the `EmptyDataError` read failure). -/
def fsBad : FileSys :=
  fun p => if p = "uploads/data.csv" then some [] else none

/-- Concrete upload request with a disallowed extension. -/
def uploadReqEx : UploadReq := ⟨true, "data.txt", true⟩

/-- Concrete session holding a valid upload reference. -/
def sessOld : Session := ⟨some "old.csv", some "uploads/old.csv"⟩

/-!
Theorems.  Each claim of the specification is settled below; shared
helper lemmas come first where needed.
-/

/-- C5: for every table and the filter spec with no clauses set (empty
date string and empty category string), the engine returns all rows
unchanged and in original order, with zero clause descriptions and zero
warnings. -/
theorem C5_empty_spec_identity (df : DF) :
    applyFilters df ⟨"", ""⟩ = ⟨df.rows, [], []⟩ := rfl

/-- C1: the category filter does not treat a missing value as empty
text.  On a table whose Restaurant Name cell of row 0 is missing and the
filter string nan, the engine keeps the missing row, because
`astype(str)` renders NaN as the text nan before the no-op
`fillna("")`; under the claimed coercion (missing value is empty text)
no row compares equal to nan, so the kept set would be empty. -/
theorem C1_missing_value_divergence :
    (applyFilters dfNan ⟨"", "nan"⟩).rows = [(0, [none])] ∧
    dfNan.rows.filter
      (fun ir => cellAsStrSpec (getCell dfNan.cols restaurantCol ir.2) == "nan") = [] := by
  decide

/-- C3 counterexample: the claim quantifies over every table, but on a
table without the Order Date column the engine checks column presence
before parsing, so the malformed date 2024-13-40 produces the
missing-column warning and no invalid-date (BadFilterInput) warning at
all. -/
theorem C3_counterexample_no_date_column :
    (applyFilters dfNoDate ⟨"2024-13-40", ""⟩).notes = [Note.columnNotFound dateCol] ∧
    Note.columnNotFound dateCol ≠ Note.invalidDateFormat "2024-13-40" := by
  decide

/-- C3 (amended: restricted to tables where the date column exists): a
date-filter string that fails to parse raises the distinct invalid-date
warning — a different constructor from the missing-column warning — and
the table passes to the restaurant clause unfiltered, with the date
clause absent from the applied-filter descriptions. -/
theorem C3_bad_date_distinct_condition (df : DF) (spec : FilterSpec)
    (h1 : spec.dateStr ≠ "") (h2 : dateCol ∈ df.cols)
    (h3 : parseDate spec.dateStr = none) :
    applyFilters df spec =
      ⟨(restClause df.cols spec.restaurant df.rows).rows,
       (restClause df.cols spec.restaurant df.rows).active,
       Note.invalidDateFormat spec.dateStr ::
         (restClause df.cols spec.restaurant df.rows).notes⟩ ∧
    (∀ c, Note.invalidDateFormat spec.dateStr ≠ Note.columnNotFound c) := by
  have hd : dateClause df.cols spec.dateStr df.rows
      = ⟨df.rows, [], [Note.invalidDateFormat spec.dateStr]⟩ := by
    unfold dateClause
    rw [if_neg h1, if_pos h2, h3]
  refine ⟨?_, fun c h => Note.noConfusion h⟩
  simp only [applyFilters, hd]
  rfl

/-- Witness for C3: the malformed date 2024-13-40 on a concrete table
that has both recognized columns. -/
theorem C3_bad_date_witness :
    applyFilters dfBoth ⟨"2024-13-40", ""⟩ =
      ⟨(restClause dfBoth.cols "" dfBoth.rows).rows,
       (restClause dfBoth.cols "" dfBoth.rows).active,
       Note.invalidDateFormat "2024-13-40" ::
         (restClause dfBoth.cols "" dfBoth.rows).notes⟩ ∧
    (∀ c, Note.invalidDateFormat "2024-13-40" ≠ Note.columnNotFound c) :=
  C3_bad_date_distinct_condition dfBoth ⟨"2024-13-40", ""⟩ (by decide) (by decide)
    (by decide)

/-- C7: a clause whose target column is absent degrades to a warning:
the rows pass through that clause unchanged, the missing-column note is
appended, no clause description is recorded for it, and the other clause
still runs. -/
theorem C7_missing_column_passthrough (df : DF) (spec : FilterSpec) :
    (spec.dateStr ≠ "" → dateCol ∉ df.cols →
      applyFilters df spec =
        ⟨(restClause df.cols spec.restaurant df.rows).rows,
         (restClause df.cols spec.restaurant df.rows).active,
         Note.columnNotFound dateCol ::
           (restClause df.cols spec.restaurant df.rows).notes⟩) ∧
    (spec.restaurant ≠ "" → restaurantCol ∉ df.cols →
      applyFilters df spec =
        ⟨(dateClause df.cols spec.dateStr df.rows).rows,
         (dateClause df.cols spec.dateStr df.rows).active,
         (dateClause df.cols spec.dateStr df.rows).notes ++
           [Note.columnNotFound restaurantCol]⟩) := by
  constructor
  · intro h1 h2
    have hd : dateClause df.cols spec.dateStr df.rows
        = ⟨df.rows, [], [Note.columnNotFound dateCol]⟩ := by
      unfold dateClause
      rw [if_neg h1, if_neg h2]
    simp only [applyFilters, hd]
    rfl
  · intro h1 h2
    have hr : restClause df.cols spec.restaurant
          (dateClause df.cols spec.dateStr df.rows).rows
        = ⟨(dateClause df.cols spec.dateStr df.rows).rows, [],
           [Note.columnNotFound restaurantCol]⟩ := by
      unfold restClause
      rw [if_neg h1, if_neg h2]
    simp only [applyFilters, hr]
    simp

/-- Witness for C7: both clauses set against a concrete table that has
neither recognized column; both warnings fire and the rows survive. -/
theorem C7_missing_column_witness :
    applyFilters dfNoCols ⟨"2024-01-05", "Pizza Place"⟩ =
      ⟨(restClause dfNoCols.cols "Pizza Place" dfNoCols.rows).rows,
       (restClause dfNoCols.cols "Pizza Place" dfNoCols.rows).active,
       Note.columnNotFound dateCol ::
         (restClause dfNoCols.cols "Pizza Place" dfNoCols.rows).notes⟩ ∧
    applyFilters dfNoCols ⟨"2024-01-05", "Pizza Place"⟩ =
      ⟨(dateClause dfNoCols.cols "2024-01-05" dfNoCols.rows).rows,
       (dateClause dfNoCols.cols "2024-01-05" dfNoCols.rows).active,
       (dateClause dfNoCols.cols "2024-01-05" dfNoCols.rows).notes ++
         [Note.columnNotFound restaurantCol]⟩ :=
  ⟨(C7_missing_column_passthrough dfNoCols ⟨"2024-01-05", "Pizza Place"⟩).1
      (by decide) (by decide),
   (C7_missing_column_passthrough dfNoCols ⟨"2024-01-05", "Pizza Place"⟩).2
      (by decide) (by decide)⟩

/-- C6: the loader tries the UTF-8 decode first and its result alone
determines the outcome when it succeeds; exactly when the UTF-8 decode
fails the Latin-1 decode (a total function) is retried; and a read
failure (`getDataframe` yielding nothing, because the file is missing or
unreadable under both encodings or malformed) makes `filter_action`
discard the stored upload reference from the session. -/
theorem C6_encoding_fallback :
    (∀ bytes cps, utf8Decode bytes = some cps →
      loadCSV bytes = parseCSV (natsToChars cps)) ∧
    (∀ bytes, utf8Decode bytes = none →
      loadCSV bytes = parseCSV (natsToChars (latin1Decode bytes))) ∧
    (∀ (fs : FileSys) (sess : Session) (path a d r : String),
      sess.filepath = some path → getDataframe fs path = none →
      (filter_action fs sess a d r).sess = ⟨none, none⟩) := by
  refine ⟨?_, ?_, ?_⟩
  · intro bytes cps h
    unfold loadCSV
    rw [h]
  · intro bytes h
    unfold loadCSV
    rw [h]
  · intro fs sess path a d r hp hN
    cases hfs : fs path with
    | none => simp [filter_action, hp, hfs]
    | some bytes =>
      have hload : loadCSV bytes = none := by
        unfold getDataframe at hN
        rw [hfs] at hN
        exact hN
      simp [filter_action, hp, hfs, hload]

/-- Witness for C6: a concrete ASCII file goes through the UTF-8 branch,
the lone byte 255 is invalid UTF-8 and goes through the Latin-1 branch,
and a session pointing at an empty (unparsable) file is cleared. -/
theorem C6_encoding_fallback_witness :
    loadCSV csvBytesEx = parseCSV (natsToChars csvBytesEx) ∧
    loadCSV [255] = parseCSV (natsToChars (latin1Decode [255])) ∧
    (filter_action fsBad sessEx "delete" "" "").sess = ⟨none, none⟩ :=
  ⟨C6_encoding_fallback.1 csvBytesEx csvBytesEx (by decide),
   C6_encoding_fallback.2.1 [255] (by decide),
   C6_encoding_fallback.2.2 fsBad sessEx "uploads/data.csv" "delete" "" ""
     rfl (by decide)⟩

/-- C9: the delete action is a pure simulation: the handler never writes
to the file system, so after a delete request the file system is the one
the request started with, the session upload reference is unchanged, and
loading the same path again yields the original table. -/
theorem C9_delete_is_pure (fs : FileSys) (sess : Session)
    (path dstr rstr : String) (df : DF)
    (hp : sess.filepath = some path) (hdf : getDataframe fs path = some df) :
    (filter_action fs sess "delete" dstr rstr).fs = fs ∧
    (filter_action fs sess "delete" dstr rstr).sess = sess ∧
    getDataframe (filter_action fs sess "delete" dstr rstr).fs path = some df := by
  cases hfs : fs path with
  | none =>
    unfold getDataframe at hdf
    rw [hfs] at hdf
    exact absurd hdf (by simp)
  | some bytes =>
    have hload : loadCSV bytes = some df := by
      unfold getDataframe at hdf
      rw [hfs] at hdf
      exact hdf
    have h1 : (filter_action fs sess "delete" dstr rstr).fs = fs := by
      by_cases he : df.rows.isEmpty <;>
        simp [filter_action, hp, hfs, hload, he]
    have h2 : (filter_action fs sess "delete" dstr rstr).sess = sess := by
      by_cases he : df.rows.isEmpty <;>
        simp [filter_action, hp, hfs, hload, he]
    exact ⟨h1, h2, by rw [h1]; exact hdf⟩

/-- Witness for C9: a concrete delete request against a concrete stored
CSV file. -/
theorem C9_delete_is_pure_witness :
    (filter_action fsEx sessEx "delete" "" "").fs = fsEx ∧
    (filter_action fsEx sessEx "delete" "" "").sess = sessEx ∧
    getDataframe (filter_action fsEx sessEx "delete" "" "").fs
      "uploads/data.csv" = some dfEx :=
  C9_delete_is_pure fsEx sessEx "uploads/data.csv" "" "" dfEx rfl (by decide)

/-- C10: an upload request rejected before saving (no file part, empty
filename, or disallowed extension) leaves the session exactly as it was,
so the previous upload reference stays usable; and the reference can
only have been cleared when the save step itself failed. -/
theorem C10_upload_rejection_frame (secure : String → String)
    (req : UploadReq) (a b : String) (sess : Session)
    (hs : sess = ⟨some a, some b⟩) :
    ((req.hasFilePart = false ∨ req.filename = "" ∨
        allowed_file req.filename = false) →
      (upload_file secure req sess).1 = sess) ∧
    ((upload_file secure req sess).1.filename = none → req.saveOk = false) := by
  subst hs
  constructor
  · intro h
    by_cases h0 : req.hasFilePart = false
    · simp [upload_file, h0]
    · by_cases h1 : req.filename = ""
      · simp [upload_file, h0, h1]
      · by_cases h2 : allowed_file req.filename = true
        · rcases h with h | h | h
          · exact absurd h h0
          · exact absurd h h1
          · rw [h2] at h
            exact absurd h (by simp)
        · simp [upload_file, h0, h1, h2]
  · intro h
    by_cases h0 : req.hasFilePart = false
    · simp [upload_file, h0] at h
    · by_cases h1 : req.filename = ""
      · simp [upload_file, h0, h1] at h
      · by_cases h2 : allowed_file req.filename = true
        · by_cases h3 : req.saveOk = true
          · simp [upload_file, h0, h1, h2, h3] at h
          · simpa using h3
        · simp [upload_file, h0, h1, h2] at h

/-- Witness for C10: a disallowed extension against a session holding a
valid reference; the session survives, and its reference is not cleared
without a failing save. -/
theorem C10_upload_rejection_frame_witness :
    (upload_file id uploadReqEx sessOld).1 = sessOld ∧
    ((upload_file id uploadReqEx sessOld).1.filename = none →
      uploadReqEx.saveOk = false) :=
  ⟨(C10_upload_rejection_frame id uploadReqEx "old.csv" "uploads/old.csv"
      sessOld rfl).1 (Or.inr (Or.inr (by decide))),
   (C10_upload_rejection_frame id uploadReqEx "old.csv" "uploads/old.csv"
      sessOld rfl).2⟩

/-- Helper: under distinct index labels, the row content is determined
by the label. -/
theorem snd_unique_of_nodup_fst {β : Type} {l : List (Nat × β)}
    (hnd : (l.map Prod.fst).Nodup) {i : Nat} {a b : β}
    (ha : (i, a) ∈ l) (hb : (i, b) ∈ l) : a = b := by
  induction l with
  | nil => cases ha
  | cons x xs ih =>
    rw [List.map_cons, List.nodup_cons] at hnd
    rcases List.mem_cons.mp ha with ha' | ha'
    · rcases List.mem_cons.mp hb with hb' | hb'
      · have hab := ha'.trans hb'.symm
        exact (Prod.mk.injEq i a i b ▸ hab).2
      · exfalso
        apply hnd.1
        rw [← ha']
        exact List.mem_map.mpr ⟨(i, b), hb', rfl⟩
    · rcases List.mem_cons.mp hb with hb' | hb'
      · exfalso
        apply hnd.1
        rw [← hb']
        exact List.mem_map.mpr ⟨(i, a), ha', rfl⟩
      · exact ih hnd.2 ha' hb'

/-- Helper: whatever branch the date clause takes, its surviving rows
are a filter of its input rows. -/
theorem dateClause_rows_filter (cols : List String) (s : String)
    (rows : List (Nat × List Cell)) :
    ∃ p, (dateClause cols s rows).rows = rows.filter p := by
  unfold dateClause
  by_cases h1 : s = ""
  · exact ⟨fun _ => true, by rw [if_pos h1, List.filter_true]⟩
  · rw [if_neg h1]
    by_cases h2 : dateCol ∈ cols
    · rw [if_pos h2]
      cases hp : parseDate s with
      | some d => exact ⟨_, rfl⟩
      | none => exact ⟨fun _ => true, by rw [List.filter_true]⟩
    · rw [if_neg h2]
      exact ⟨fun _ => true, by rw [List.filter_true]⟩

/-- Helper: whatever branch the restaurant clause takes, its surviving
rows are a filter of its input rows. -/
theorem restClause_rows_filter (cols : List String) (s : String)
    (rows : List (Nat × List Cell)) :
    ∃ p, (restClause cols s rows).rows = rows.filter p := by
  unfold restClause
  by_cases h1 : s = ""
  · exact ⟨fun _ => true, by rw [if_pos h1, List.filter_true]⟩
  · rw [if_neg h1]
    by_cases h2 : restaurantCol ∈ cols
    · rw [if_pos h2]
      exact ⟨_, rfl⟩
    · rw [if_neg h2]
      exact ⟨fun _ => true, by rw [List.filter_true]⟩

/-- Helper: the filter engine output is a filter of the original rows. -/
theorem applyFilters_rows_filter (df : DF) (spec : FilterSpec) :
    ∃ p, (applyFilters df spec).rows = df.rows.filter p := by
  obtain ⟨p1, h1⟩ := dateClause_rows_filter df.cols spec.dateStr df.rows
  obtain ⟨p2, h2⟩ := restClause_rows_filter df.cols spec.restaurant
    (dateClause df.cols spec.dateStr df.rows).rows
  refine ⟨fun x => p2 x && p1 x, ?_⟩
  show (restClause df.cols spec.restaurant
    (dateClause df.cols spec.dateStr df.rows).rows).rows = _
  rw [h2, h1, List.filter_filter]

/-- C2: for every table with distinct index labels and every filter
spec, the delete-simulation remainder together with the filtered subset
is a permutation of the original rows (no positionally-identified row is
lost or duplicated, and the index labels of the union are distinct), and
when the filter matched nothing the remainder is the untouched table
with a reported deletion count of zero. -/
theorem C2_delete_complement_reconstructs (df : DF) (spec : FilterSpec)
    (hnd : (df.rows.map Prod.fst).Nodup) :
    ((deleteSimulate df (applyFilters df spec).rows).1 ++
        (applyFilters df spec).rows).Perm df.rows ∧
    (((deleteSimulate df (applyFilters df spec).rows).1 ++
        (applyFilters df spec).rows).map Prod.fst).Nodup ∧
    ((applyFilters df spec).rows = [] →
      deleteSimulate df (applyFilters df spec).rows = (df.rows, 0)) := by
  obtain ⟨p, hp⟩ := applyFilters_rows_filter df spec
  have hperm : ((deleteSimulate df (applyFilters df spec).rows).1 ++
      (applyFilters df spec).rows).Perm df.rows := by
    by_cases he : (applyFilters df spec).rows.isEmpty
    · have h0 : (applyFilters df spec).rows = [] := List.isEmpty_iff.mp he
      rw [h0]
      simp [deleteSimulate]
    · have hcomp : complementOf df.rows (applyFilters df spec).rows =
          df.rows.filter (fun x => !p x) := by
        apply List.filter_congr
        intro x hx
        have hiff : x.1 ∈ (applyFilters df spec).rows.map Prod.fst ↔ p x = true := by
          constructor
          · intro hmem
            obtain ⟨y, hy, hyx⟩ := List.mem_map.mp hmem
            have hyl : y ∈ df.rows := by
              rw [hp] at hy
              exact List.mem_of_mem_filter hy
            obtain ⟨i, c⟩ := y
            obtain ⟨j, d⟩ := x
            have hij : i = j := hyx
            subst hij
            have hcd : c = d := snd_unique_of_nodup_fst hnd hyl hx
            subst hcd
            rw [hp] at hy
            exact (List.mem_filter.mp hy).2
          · intro hpx
            have hxf : x ∈ (applyFilters df spec).rows := by
              rw [hp]
              exact List.mem_filter.mpr ⟨hx, hpx⟩
            exact List.mem_map.mpr ⟨x, hxf, rfl⟩
        by_cases hpx : p x = true
        · have hmem := hiff.mpr hpx
          simp [hmem, hpx]
        · have hmem : x.1 ∉ (applyFilters df spec).rows.map Prod.fst :=
            fun hm => hpx (hiff.mp hm)
          simp [hmem, hpx]
      have hstep : (deleteSimulate df (applyFilters df spec).rows).1 ++
          (applyFilters df spec).rows =
          df.rows.filter (fun x => !p x) ++ df.rows.filter p := by
        rw [deleteSimulate, if_neg (by simpa using he)]
        rw [hcomp, hp]
      rw [hstep]
      exact (List.perm_append_comm).trans (List.filter_append_perm p df.rows)
  refine ⟨hperm, ?_, ?_⟩
  · exact ((hperm.map Prod.fst).nodup_iff).mpr hnd
  · intro h0
    rw [h0]
    simp [deleteSimulate]

/-- Witness for C2: the restaurant filter on a concrete four-row table. -/
theorem C2_delete_complement_witness :
    ((deleteSimulate dfBoth (applyFilters dfBoth ⟨"", "Pizza Place"⟩).rows).1 ++
        (applyFilters dfBoth ⟨"", "Pizza Place"⟩).rows).Perm dfBoth.rows ∧
    (((deleteSimulate dfBoth (applyFilters dfBoth ⟨"", "Pizza Place"⟩).rows).1 ++
        (applyFilters dfBoth ⟨"", "Pizza Place"⟩).rows).map Prod.fst).Nodup ∧
    ((applyFilters dfBoth ⟨"", "Pizza Place"⟩).rows = [] →
      deleteSimulate dfBoth (applyFilters dfBoth ⟨"", "Pizza Place"⟩).rows =
        (dfBoth.rows, 0)) :=
  C2_delete_complement_reconstructs dfBoth ⟨"", "Pizza Place"⟩ (by decide)

/-- C4: on a table with the Order Date column and at least one parseable
date, the summary is a report whose buckets each count exactly the rows
normalizing to that date, whose bucket dates are exactly the parsed
dates of the rows (so rows with unparsable or missing dates appear in no
bucket), which is strictly ascending by date, and whose counts sum to
the number of rows carrying a parseable date. -/
theorem C4_summary_grouping (df : DF) (hcol : dateCol ∈ df.cols)
    (hne : validDates df ≠ []) :
    ∃ l, summarize df = .report l ∧
      (∀ q ∈ l, q.2 = (validDates df).count q.1) ∧
      (∀ d, d ∈ l.map Prod.fst ↔ d ∈ validDates df) ∧
      List.Sorted (· < ·) (l.map Prod.fst) ∧
      (l.map Prod.snd).sum = (validDates df).length := by
  have hie : (validDates df).isEmpty = false := List.isEmpty_eq_false.mpr hne
  have hperm : (Multiset.sort (· ≤ ·) (↑(validDates df).dedup : Multiset Nat)).Perm
      (validDates df).dedup :=
    Multiset.coe_eq_coe.mp (Multiset.sort_eq _ _)
  have hnd : (Multiset.sort (· ≤ ·) (↑(validDates df).dedup : Multiset Nat)).Nodup :=
    (hperm.nodup_iff).mpr (List.nodup_dedup _)
  have hfst : ((Multiset.sort (· ≤ ·) (↑(validDates df).dedup : Multiset Nat)).map
      (fun d => (d, (validDates df).count d))).map Prod.fst =
      Multiset.sort (· ≤ ·) (↑(validDates df).dedup : Multiset Nat) := by
    rw [List.map_map]
    exact List.map_id _
  refine ⟨(Multiset.sort (· ≤ ·) (↑(validDates df).dedup : Multiset Nat)).map
      (fun d => (d, (validDates df).count d)), ?_, ?_, ?_, ?_, ?_⟩
  · simp [summarize, hcol, hie]
  · intro q hq
    obtain ⟨d, hd, rfl⟩ := List.mem_map.mp hq
    rfl
  · intro d
    rw [hfst]
    exact hperm.mem_iff.trans List.mem_dedup
  · rw [hfst]
    exact (Multiset.sort_sorted _ _).lt_of_le hnd
  · rw [List.map_map, List.Perm.sum_eq (hperm.map _)]
    exact List.sum_map_count_dedup_eq_length _

/-- Witness for C4: the concrete table with two rows dated 2024-01-05,
one dated 2024-01-06 and one unparsable date. -/
theorem C4_summary_witness :
    ∃ l, summarize dfBoth = .report l ∧
      (∀ q ∈ l, q.2 = (validDates dfBoth).count q.1) ∧
      (∀ d, d ∈ l.map Prod.fst ↔ d ∈ validDates dfBoth) ∧
      List.Sorted (· < ·) (l.map Prod.fst) ∧
      (l.map Prod.snd).sum = (validDates dfBoth).length :=
  C4_summary_grouping dfBoth (by decide) (by decide)

/-- Helper: splitting never yields the empty list of fields. -/
theorem splitSep_ne_nil (c : Char) (l : List Char) : splitSep c l ≠ [] := by
  induction l with
  | nil => simp [splitSep]
  | cons x xs ih =>
    simp only [splitSep]
    by_cases h : x = c
    · simp [h]
    · simp [h]

/-- Helper: splitting after a separator-free chunk prepends the chunk to
the first field. -/
theorem splitSep_append (c : Char) (f t : List Char) (hf : c ∉ f) :
    splitSep c (f ++ t) = (f ++ (splitSep c t).headD []) :: (splitSep c t).tail := by
  induction f with
  | nil =>
    simp only [List.nil_append]
    cases h : splitSep c t with
    | nil => exact absurd h (splitSep_ne_nil c t)
    | cons a as => simp
  | cons x xs ih =>
    have hx : ¬ x = c := fun he => hf (List.mem_cons.mpr (Or.inl he.symm))
    have hxs : c ∉ xs := fun hm => hf (List.mem_cons_of_mem x hm)
    have hstep : splitSep c (x :: (xs ++ t)) =
        (x :: (splitSep c (xs ++ t)).headD []) :: (splitSep c (xs ++ t)).tail := by
      simp [splitSep, hx]
    rw [List.cons_append, hstep, ih hxs]
    simp

/-- Helper: a separator-free text is one single field. -/
theorem splitSep_single (c : Char) (f : List Char) (hf : c ∉ f) :
    splitSep c f = [f] := by
  have h := splitSep_append c f [] hf
  simpa [splitSep] using h

/-- Helper: splitting strips the first separator after a separator-free
field. -/
theorem splitSep_sep (c : Char) (f t : List Char) (hf : c ∉ f) :
    splitSep c (f ++ c :: t) = f :: splitSep c t := by
  have h := splitSep_append c f (c :: t) hf
  rw [h]
  have h2 : splitSep c (c :: t) = [] :: splitSep c t := by
    simp [splitSep]
  rw [h2]
  simp

/-- Helper: splitting is a left inverse of joining for non-empty field
lists with separator-free fields. -/
theorem joinSep_split (c : Char) (fs : List (List Char)) (hne : fs ≠ [])
    (hc : ∀ f ∈ fs, c ∉ f) : splitSep c (joinSep c fs) = fs := by
  induction fs with
  | nil => exact absurd rfl hne
  | cons f rest ih =>
    cases rest with
    | nil => simpa [joinSep] using splitSep_single c f (hc f (List.mem_cons_self f []))
    | cons g rest2 =>
      have hj : joinSep c (f :: g :: rest2) = f ++ c :: joinSep c (g :: rest2) := rfl
      rw [hj, splitSep_sep c f _ (hc f (List.mem_cons_self f _)),
        ih (by simp) (fun x hx => hc x (List.mem_cons_of_mem f hx))]

/-- Helper: a joined line with a non-empty first field is non-empty. -/
theorem joinSep_ne_nil (c : Char) (f : List Char) (rest : List (List Char))
    (hf : f ≠ []) : joinSep c (f :: rest) ≠ [] := by
  cases rest with
  | nil => simpa [joinSep] using hf
  | cons g r => simp [joinSep]

/-- Helper: every character of a joined line is the separator or comes
from one of the fields. -/
theorem mem_joinSep {c x : Char} {fs : List (List Char)}
    (h : x ∈ joinSep c fs) : x = c ∨ ∃ f ∈ fs, x ∈ f := by
  induction fs with
  | nil => simp [joinSep] at h
  | cons f rest ih =>
    cases rest with
    | nil =>
      right
      exact ⟨f, List.mem_cons_self f [], by simpa [joinSep] using h⟩
    | cons g r2 =>
      rw [show joinSep c (f :: g :: r2) = f ++ c :: joinSep c (g :: r2) from rfl] at h
      rcases List.mem_append.mp h with h | h
      · right
        exact ⟨f, List.mem_cons_self f _, h⟩
      · rcases List.mem_cons.mp h with h | h
        · left
          exact h
        · rcases ih h with h | ⟨f2, hf2, hx⟩
          · left
            exact h
          · right
            exact ⟨f2, List.mem_cons_of_mem f hf2, hx⟩

/-- Helper: splitting newline-terminated lines recovers the lines plus
one final empty field. -/
theorem splitSep_lines (L : List (List Char))
    (h : ∀ l ∈ L, '\n' ∉ l) :
    splitSep '\n' ((L.map (fun l => l ++ [ '\n'])).flatten) = L ++ [[]] := by
  induction L with
  | nil => simp [splitSep]
  | cons l L ih =>
    simp only [List.map_cons, List.flatten_cons]
    rw [List.append_assoc, List.singleton_append,
      splitSep_sep _ l _ (h l (List.mem_cons_self l L)),
      ih (fun x hx => h x (List.mem_cons_of_mem l hx))]
    rfl

/-- Helper: what `cleanChars` guarantees, in propositional form. -/
theorem cleanChars_spec {l : List Char} (h : cleanChars l = true) :
    l ≠ [] ∧ ',' ∉ l ∧ '\n' ∉ l ∧ ∀ c ∈ l, c.toNat < 128 := by
  unfold cleanChars at h
  rw [Bool.and_eq_true, List.all_eq_true] at h
  obtain ⟨h1, h2⟩ := h
  have hne : l ≠ [] := by
    intro h0
    rw [h0] at h1
    simp at h1
  refine ⟨hne, ?_, ?_, ?_⟩
  · intro hm
    have hf := h2 ',' hm
    simp only [Bool.and_eq_true, bne_iff_ne] at hf
    exact hf.1.1.2 (by decide)
  · intro hm
    have hf := h2 '\n' hm
    simp only [Bool.and_eq_true, bne_iff_ne] at hf
    exact hf.1.1.1.1 (by decide)
  · intro c hc
    have hf := h2 c hc
    rw [Bool.and_eq_true] at hf
    exact of_decide_eq_true hf.2

/-- Helper: what `cleanDF` guarantees of every serialized line: a
non-empty field list whose fields are non-empty, free of the comma and
newline separators, and pure ASCII. -/
theorem fieldRows_facts (df : DF) (h : cleanDF df = true) :
    ∀ fl ∈ fieldRows df, fl ≠ [] ∧
      ∀ f ∈ fl, f ≠ [] ∧ ',' ∉ f ∧ '\n' ∉ f ∧ ∀ c ∈ f, c.toNat < 128 := by
  unfold cleanDF at h
  rw [Bool.and_eq_true, Bool.and_eq_true, List.all_eq_true, List.all_eq_true] at h
  obtain ⟨⟨h0, h1⟩, h2⟩ := h
  have hcolsne : df.cols ≠ [] := by
    intro hx
    rw [hx] at h0
    simp at h0
  intro fl hfl
  unfold fieldRows at hfl
  rcases List.mem_cons.mp hfl with rfl | hfl
  · refine ⟨?_, ?_⟩
    · intro hx
      exact hcolsne (List.map_eq_nil_iff.mp hx)
    · intro f hf
      obtain ⟨s, hs, rfl⟩ := List.mem_map.mp hf
      have hc := cleanChars_spec (h1 s hs)
      exact ⟨hc.1, hc.2.1, hc.2.2.1, hc.2.2.2⟩
  · obtain ⟨ir, hir, rfl⟩ := List.mem_map.mp hfl
    have hfact := h2 ir hir
    rw [Bool.and_eq_true, List.all_eq_true] at hfact
    obtain ⟨hlen, hcells⟩ := hfact
    refine ⟨?_, ?_⟩
    · intro hx
      have hnil : ir.2 = [] := List.map_eq_nil_iff.mp hx
      rw [hnil, beq_iff_eq] at hlen
      exact hcolsne (List.length_eq_zero.mp hlen.symm)
    · intro f hf
      obtain ⟨cell, hcell, rfl⟩ := List.mem_map.mp hf
      have hcc := hcells cell hcell
      cases cell with
      | none => simp [cleanCellB] at hcc
      | some s =>
        have hc := cleanChars_spec (by simpa [cleanCellB] using hcc)
        exact ⟨hc.1, hc.2.1, hc.2.2.1, hc.2.2.2⟩

/-- Helper: parsing the serialization of a clean table succeeds and
recovers the table, re-indexed with the fresh RangeIndex. -/
theorem parseCSV_encodeCSV (df : DF) (h : cleanDF df = true) :
    parseCSV (encodeCSV df) = some ⟨df.cols, (df.rows.map Prod.snd).enum⟩ := by
  have hFF := fieldRows_facts df h
  have hclean := h
  unfold cleanDF at hclean
  rw [Bool.and_eq_true, Bool.and_eq_true, List.all_eq_true, List.all_eq_true] at hclean
  obtain ⟨⟨h0, h1⟩, h2⟩ := hclean
  have hLnl : ∀ l ∈ (fieldRows df).map (joinSep ','), '\n' ∉ l := by
    intro l hl
    obtain ⟨fl, hfl, rfl⟩ := List.mem_map.mp hl
    intro hmem
    rcases mem_joinSep hmem with he | ⟨f, hf, hx⟩
    · exact absurd he (by decide)
    · exact ((hFF fl hfl).2 f hf).2.2.1 hx
  have hLne : ∀ l ∈ (fieldRows df).map (joinSep ','), l ≠ [] := by
    intro l hl
    obtain ⟨fl, hfl, rfl⟩ := List.mem_map.mp hl
    obtain ⟨hflne, hfields⟩ := hFF fl hfl
    cases fl with
    | nil => exact absurd rfl hflne
    | cons f rest =>
      exact joinSep_ne_nil ',' f rest (hfields f (List.mem_cons_self f rest)).1
  have hsplit : splitSep '\n' (encodeCSV df) =
      (fieldRows df).map (joinSep ',') ++ [[]] := by
    have he : encodeCSV df =
        ((((fieldRows df).map (joinSep ',')).map (fun l => l ++ [ '\n']))).flatten := by
      unfold encodeCSV
      rw [List.map_map]
      rfl
    rw [he, splitSep_lines _ hLnl]
  have hfilter : (((fieldRows df).map (joinSep ',') ++ [[]]).filter
      (fun l => !l.isEmpty)) = (fieldRows df).map (joinSep ',') := by
    rw [List.filter_append]
    have hA : (((fieldRows df).map (joinSep ',')).filter (fun l => !l.isEmpty)) =
        (fieldRows df).map (joinSep ',') := by
      apply List.filter_eq_self.mpr
      intro l hl
      cases hcase : l with
      | nil => exact absurd hcase (hLne l hl)
      | cons a as => rfl
    have hB : (([[]] : List (List Char)).filter (fun l => !l.isEmpty)) = [] := rfl
    rw [hA, hB, List.append_nil]
  have hheader : ((splitSep ',' (joinSep ',' (df.cols.map String.data))).map String.mk)
      = df.cols := by
    have hmem0 : (df.cols.map String.data) ∈ fieldRows df := List.mem_cons_self _ _
    obtain ⟨hne0, hf0⟩ := hFF _ hmem0
    rw [joinSep_split ',' _ hne0 (fun f hf => (hf0 f hf).2.1)]
    rw [List.map_map]
    exact (List.map_congr_left (fun s hs => rfl)).trans (List.map_id _)
  have hrowline : ∀ ir ∈ df.rows,
      ((splitSep ',' (joinSep ',' (ir.2.map encodeField))).map parseField) = ir.2 := by
    intro ir hir
    have hmem : (ir.2.map encodeField) ∈ fieldRows df := by
      unfold fieldRows
      exact List.mem_cons_of_mem _ (List.mem_map.mpr ⟨ir, hir, rfl⟩)
    obtain ⟨hne1, hf1⟩ := hFF _ hmem
    rw [joinSep_split ',' _ hne1 (fun f hf => (hf1 f hf).2.1)]
    rw [List.map_map]
    have hcellfacts := h2 ir hir
    rw [Bool.and_eq_true, List.all_eq_true] at hcellfacts
    refine (List.map_congr_left ?_).trans (List.map_id _)
    intro cell hcell
    have hcc := hcellfacts.2 cell hcell
    cases cell with
    | none => simp [cleanCellB] at hcc
    | some s =>
      have hc := cleanChars_spec (by simpa [cleanCellB] using hcc)
      show parseField (encodeField (some s)) = id (some s)
      unfold parseField encodeField
      rw [show s.data.isEmpty = false from List.isEmpty_eq_false.mpr hc.1]
      rfl
  have hfilter2 : ((splitSep '\n' (encodeCSV df)).filter (fun l => !l.isEmpty)) =
      (fieldRows df).map (joinSep ',') := by
    rw [hsplit]
    exact hfilter
  simp only [parseCSV, hfilter2, fieldRows, List.map_cons]
  rw [hheader]
  have hrows2 : (((df.rows.map (fun ir => ir.2.map encodeField)).map (joinSep ',')).map
      (fun line => (splitSep ',' line).map parseField)) = df.rows.map Prod.snd := by
    rw [List.map_map, List.map_map]
    apply List.map_congr_left
    intro ir hir
    simpa [Function.comp] using hrowline ir hir
  rw [hrows2]
  have hall : ((df.rows.map Prod.snd).all
      (fun r => r.length == df.cols.length)) = true := by
    rw [List.all_eq_true]
    intro r hr
    obtain ⟨ir, hir, rfl⟩ := List.mem_map.mp hr
    have hfact := h2 ir hir
    rw [Bool.and_eq_true] at hfact
    exact hfact.1
  rw [hall]
  rfl

/-- Helper: on ASCII text the UTF-8 encoder writes one byte per
character. -/
theorem utf8Encode_ascii (cs : List Char) (h : ∀ c ∈ cs, c.toNat < 128) :
    utf8Encode cs = cs.map Char.toNat := by
  induction cs with
  | nil => rfl
  | cons c cs ih =>
    have hc : c.toNat ≤ 127 := Nat.lt_succ_iff.mp (h c (List.mem_cons_self c cs))
    have hrest := ih (fun x hx => h x (List.mem_cons_of_mem c hx))
    show ((c :: cs).map (fun c => utf8EncodeChar c.toNat)).flatten = _
    rw [List.map_cons, List.flatten_cons,
      show utf8EncodeChar c.toNat = [c.toNat] from by
        unfold utf8EncodeChar
        rw [if_pos hc],
      show ((cs.map (fun c => utf8EncodeChar c.toNat)).flatten) = utf8Encode cs from rfl,
      hrest]
    rfl

/-- Helper: with enough fuel, the decoding loop on bytes below 128
succeeds and is the identity. -/
theorem utf8DecodeAux_ascii (fuel : Nat) (bs : List Nat)
    (hf : bs.length ≤ fuel) (h : ∀ b ∈ bs, b < 128) :
    utf8DecodeAux fuel bs = some bs := by
  induction fuel generalizing bs with
  | zero =>
    cases bs with
    | nil => rfl
    | cons b bs => simp at hf
  | succ fuel ih =>
    cases bs with
    | nil => rfl
    | cons b bs =>
      have hb : b ≤ 127 := Nat.lt_succ_iff.mp (h b (List.mem_cons_self b bs))
      have hstep : utf8Step b bs = some (b, bs) := by
        unfold utf8Step
        rw [if_pos hb]
      have hrest := ih bs (Nat.le_of_succ_le_succ hf)
        (fun x hx => h x (List.mem_cons_of_mem b hx))
      rw [utf8DecodeAux, hstep]
      show (utf8DecodeAux fuel bs).map (fun x => b :: x) = some (b :: bs)
      rw [hrest]
      rfl

/-- Helper: on bytes below 128 the UTF-8 decoder succeeds and is the
identity. -/
theorem utf8Decode_ascii (bs : List Nat) (h : ∀ b ∈ bs, b < 128) :
    utf8Decode bs = some bs := by
  unfold utf8Decode
  exact utf8DecodeAux_ascii bs.length bs (Nat.le_refl _) h

/-- Helper: the serialization of a clean table is ASCII text. -/
theorem encodeCSV_ascii (df : DF) (h : cleanDF df = true) :
    ∀ c ∈ encodeCSV df, c.toNat < 128 := by
  have hFF := fieldRows_facts df h
  intro c hc
  unfold encodeCSV at hc
  rw [List.mem_flatten] at hc
  obtain ⟨line, hline, hcline⟩ := hc
  obtain ⟨fl, hfl, rfl⟩ := List.mem_map.mp hline
  rcases List.mem_append.mp hcline with hcj | hcn
  · rcases mem_joinSep hcj with he | ⟨f, hf, hcf⟩
    · rw [he]
      decide
    · exact ((hFF fl hfl).2 f hf).2.2.2 c hcf
  · have he : c = '\n' := by simpa using hcn
    rw [he]
    decide

/-- Helper: code points of characters convert back to the characters. -/
theorem natsToChars_map_toNat (cs : List Char) :
    natsToChars (cs.map Char.toNat) = cs := by
  unfold natsToChars
  rw [List.map_map]
  exact (List.map_congr_left (fun c hc => Char.ofNat_toNat c)).trans (List.map_id _)

/-- Helper: the fallback loader recovers a clean table from its download
byte stream, re-indexed with the fresh RangeIndex. -/
theorem loadCSV_encodeBytes (df : DF) (h : cleanDF df = true) :
    loadCSV (encodeBytes df) = some ⟨df.cols, (df.rows.map Prod.snd).enum⟩ := by
  have hascii := encodeCSV_ascii df h
  have h1 : utf8Encode (encodeCSV df) = (encodeCSV df).map Char.toNat :=
    utf8Encode_ascii _ hascii
  have hdec : utf8Decode ((encodeCSV df).map Char.toNat) =
      some ((encodeCSV df).map Char.toNat) := by
    apply utf8Decode_ascii
    intro b hb
    obtain ⟨c, hc, rfl⟩ := List.mem_map.mp hb
    exact hascii c hc
  show loadCSV (utf8Encode (encodeCSV df)) = _
  rw [h1]
  unfold loadCSV
  rw [hdec]
  show parseCSV (natsToChars ((encodeCSV df).map Char.toNat)) = _
  rw [natsToChars_map_toNat]
  exact parseCSV_encodeCSV df h

/-- Helper: the serialization ignores the index labels, so re-indexing
does not change the emitted bytes. -/
theorem encodeCSV_enum (df : DF) :
    encodeCSV ⟨df.cols, ((df.rows.map Prod.snd).enum : List (Nat × List Cell))⟩ =
      encodeCSV df := by
  unfold encodeCSV fieldRows
  have hrows : (((df.rows.map Prod.snd).enum).map (fun ir => ir.2.map encodeField))
      = df.rows.map (fun ir => ir.2.map encodeField) := by
    rw [show (fun ir : Nat × List Cell => ir.2.map encodeField)
        = (fun r : List Cell => r.map encodeField) ∘ Prod.snd from rfl,
      ← List.map_map, List.enum_map_snd, List.map_map]
  rw [hrows]

/-- C8: for every clean table (no delimiter, quote, newline or
non-ASCII characters in cells or column names, no missing or empty
cells, at least one column), encoding to the download byte stream,
re-loading through the table loader, and encoding again is byte-identical
to the first encoding; the header row and the row order and contents
survive the round trip. -/
theorem C8_encode_load_encode (df : DF) (h : cleanDF df = true) :
    ∃ df2, loadCSV (encodeBytes df) = some df2 ∧
      df2.cols = df.cols ∧
      df2.rows.map Prod.snd = df.rows.map Prod.snd ∧
      encodeBytes df2 = encodeBytes df := by
  refine ⟨⟨df.cols, (df.rows.map Prod.snd).enum⟩, loadCSV_encodeBytes df h, rfl,
    ?_, ?_⟩
  · exact List.enum_map_snd _
  · unfold encodeBytes
    rw [encodeCSV_enum]

/-- Witness for C8: the concrete clean two-column table. -/
theorem C8_encode_load_encode_witness :
    ∃ df2, loadCSV (encodeBytes dfClean) = some df2 ∧
      df2.cols = dfClean.cols ∧
      df2.rows.map Prod.snd = dfClean.rows.map Prod.snd ∧
      encodeBytes df2 = encodeBytes dfClean :=
  C8_encode_load_encode dfClean (by decide)
